import Mathlib

/-!
Verification of the fullpage-screenshots capture pipeline (src/index.js).

The development shallowly embeds the four algorithmic pieces of the module:

* the scroll-offset planner inside `takeScreenshotsOfPage` (lines 56-73),
  embedded as `positionsLoop` (the `while (true)` loop, made total with an
  explicit fuel parameter that the loop provably never exhausts when
  `overlap < viewportHeight`) and `capturePlan` (loop plus the
  snap-to-bottom step);
* the fixed-to-absolute DOM normalization `convertFixedElementsToAbsolute`
  (lines 12-32), embedded as `convertToAbsolute` over an element tree;
* the stitching step `stitchScreenshots` (lines 115-135), embedded as a
  left fold of opaque compositing operations over a white canvas;
* the orchestration / retry logic of `captureFullPageScreenshot`
  (lines 164-241), embedded as a function over an environment recording
  the outcome of each browser interaction.
-/

namespace FullPageScreenshots

/-- The `while (true)` scroll-position loop of `takeScreenshotsOfPage`
(src/index.js lines 59-67): push `currentPos`, advance by
`viewportHeight - overlap`, and break once the advanced position plus
`viewportHeight` exceeds `fullHeight`.  The JS loop has no fuel; the `fuel`
parameter makes the definition total, and `positionsLoop_breaks` below shows
the loop always exits through its `break` (never by exhausting fuel) for the
fuel `capturePlan` supplies, whenever `overlap < viewportHeight`. -/
def positionsLoop (fullHeight viewportHeight overlap : ℤ) : ℕ → ℤ → List ℤ
  | 0, _ => []
  | fuel + 1, currentPos =>
    if currentPos + (viewportHeight - overlap) + viewportHeight > fullHeight then
      [currentPos]
    else
      currentPos :: positionsLoop fullHeight viewportHeight overlap fuel
        (currentPos + (viewportHeight - overlap))

/-- The scroll-offset plan of `takeScreenshotsOfPage` (src/index.js lines
58-73): the loop positions followed by the snap-to-bottom step, which appends
`finalPos = max(0, fullHeight - viewportHeight)` exactly when it exceeds the
last loop position by more than `overlap / 2` (JS real division, exact over
`ℚ` for integer inputs). -/
def capturePlan (fullHeight viewportHeight overlap : ℤ) : List ℤ :=
  let positions := positionsLoop fullHeight viewportHeight overlap (fullHeight.toNat + 1) 0
  let finalPos : ℤ := max 0 (fullHeight - viewportHeight)
  if (finalPos : ℚ) > (positions.getLastD 0 : ℚ) + (overlap : ℚ) / 2 then
    positions ++ [finalPos]
  else
    positions

/-- The JS snap condition `finalPos > last + overlap / 2`, stated over `ℚ`,
is equivalent to the integer inequality `2 * last + overlap < 2 * finalPos`. -/
theorem snap_condition_iff (f l ov : ℤ) :
    ((f : ℚ) > (l : ℚ) + (ov : ℚ) / 2) ↔ 2 * l + ov < 2 * f := by
  rw [gt_iff_lt]
  constructor
  · intro h
    have h2 : (2 * l + ov : ℚ) < 2 * f := by linarith
    exact_mod_cast h2
  · intro h
    have h2 : (2 * l + ov : ℚ) < 2 * f := by exact_mod_cast h
    push_cast at h2
    linarith

theorem positionsLoop_ne_nil (fullHeight viewportHeight overlap : ℤ) (fuel : ℕ) (cur : ℤ) :
    positionsLoop fullHeight viewportHeight overlap (fuel + 1) cur ≠ [] := by
  unfold positionsLoop
  split <;> simp

theorem positionsLoop_head (fullHeight viewportHeight overlap : ℤ) (fuel : ℕ) (cur : ℤ) :
    (positionsLoop fullHeight viewportHeight overlap (fuel + 1) cur).head? = some cur := by
  unfold positionsLoop
  split <;> simp

theorem positionsLoop_chain (fullHeight viewportHeight overlap : ℤ)
    (hstep : 0 < viewportHeight - overlap) :
    ∀ (fuel : ℕ) (cur : ℤ),
      List.Chain' (· < ·) (positionsLoop fullHeight viewportHeight overlap fuel cur) := by
  intro fuel
  induction fuel with
  | zero => intro cur; simp [positionsLoop]
  | succ n ih =>
    intro cur
    unfold positionsLoop
    split
    · simp
    · rcases n with _ | m
      · simp [positionsLoop]
      · refine List.chain'_cons'.mpr ⟨?_, ih _⟩
        intro y hy
        rw [positionsLoop_head] at hy
        cases hy
        omega

theorem positionsLoop_mem_le (fullHeight viewportHeight overlap : ℤ) :
    ∀ (fuel : ℕ) (cur : ℤ), cur + viewportHeight ≤ fullHeight →
      ∀ o ∈ positionsLoop fullHeight viewportHeight overlap fuel cur,
        o + viewportHeight ≤ fullHeight := by
  intro fuel
  induction fuel with
  | zero => intro cur _ o ho; simp [positionsLoop] at ho
  | succ n ih =>
    intro cur hcur o ho
    unfold positionsLoop at ho
    split at ho
    · simp at ho; omega
    · rcases List.mem_cons.mp ho with h | h
      · omega
      · exact ih _ (by omega) o h

/-- When `overlap < viewportHeight`, the loop exits through its `break`
statement: the last collected position `L` satisfies
`L + (viewportHeight - overlap) + viewportHeight > fullHeight`, provided the
fuel covers the remaining distance.  With the fuel `capturePlan` supplies
this always holds, so the fueled loop computes exactly what the JS
`while (true)` loop computes. -/
theorem positionsLoop_breaks (fullHeight viewportHeight overlap : ℤ)
    (hstep : 0 < viewportHeight - overlap) :
    ∀ (fuel : ℕ) (cur : ℤ), 1 ≤ fuel →
      fullHeight - viewportHeight - cur + 1 ≤ (fuel : ℤ) →
      fullHeight <
        (positionsLoop fullHeight viewportHeight overlap fuel cur).getLastD 0
          + (viewportHeight - overlap) + viewportHeight := by
  intro fuel
  induction fuel with
  | zero => intro cur h; omega
  | succ n ih =>
    intro cur _ hfuel
    unfold positionsLoop
    split
    · simpa using (by omega : fullHeight < cur + (viewportHeight - overlap) + viewportHeight)
    · rename_i hbreak
      have hle : cur + (viewportHeight - overlap) + viewportHeight ≤ fullHeight := by
        omega
      have hn1 : 1 ≤ n := by
        have : (n : ℤ) + 1 ≥ fullHeight - viewportHeight - cur + 1 := by exact_mod_cast hfuel
        omega
      rcases n with _ | m
      · omega
      · have hrec := ih (cur + (viewportHeight - overlap)) hn1 (by push_cast; push_cast at hfuel; omega)
        have hne := positionsLoop_ne_nil fullHeight viewportHeight overlap m
          (cur + (viewportHeight - overlap))
        rw [List.getLastD_cons, List.getLastD_eq_getLast?]
        rw [List.getLastD_eq_getLast?] at hrec
        cases h : (positionsLoop fullHeight viewportHeight overlap (m + 1)
            (cur + (viewportHeight - overlap))).getLast? with
        | none => exact absurd (List.getLast?_eq_none_iff.mp h) hne
        | some L =>
          rw [h] at hrec
          simpa using hrec

/-- Concrete evaluation of the plan at the spec example
`viewportHeight=768, overlap=100, totalHeight=2000`. -/
theorem capturePlan_eval_2000_768_100 : capturePlan 2000 768 100 = [0, 668, 1232] := by
  have hpos : positionsLoop 2000 768 100 ((2000 : ℤ).toNat + 1) 0 = [0, 668] := by decide
  unfold capturePlan
  rw [hpos, if_pos]
  · norm_num
  · norm_num

/-- Concrete evaluation of the plan at
`totalHeight=800, viewportHeight=768, overlap=100`: the snap-to-bottom offset
`32 = 800 - 768` is suppressed because `32 <= 0 + 100 / 2`, leaving `[0]`. -/
theorem capturePlan_eval_800_768_100 : capturePlan 800 768 100 = [0] := by
  have hpos : positionsLoop 800 768 100 ((800 : ℤ).toNat + 1) 0 = [0] := by decide
  unfold capturePlan
  rw [hpos, if_neg]
  norm_num

/-- C4 counterexample: at `viewportHeight=768, overlap=100, totalHeight=2000`
the planner does NOT produce `[0, 668, 1336]`.  The loop breaks before
pushing `1336` because the break condition is tested on the advanced
position (`1336 + 768 > 2000`), and the snap-to-bottom offset `1232` is then
appended (not suppressed) since `1232 > 668 + 50`. -/
theorem capturePlan_spec_example_false : capturePlan 2000 768 100 ≠ [0, 668, 1336] := by
  rw [capturePlan_eval_2000_768_100]
  decide

/-- C4 (amended): for `viewportHeight=768, overlap=100, totalHeight=2000` the
planner produces `[0, 668, 1232]`: the loop appends `0` and `668`, stops
before `1336` because `1336 + 768 > 2000`, and the snap-to-bottom candidate
`1232` is appended because `1232 > 668 + 100 / 2`. -/
theorem capturePlan_spec_example_amended : capturePlan 2000 768 100 = [0, 668, 1232] :=
  capturePlan_eval_2000_768_100

/-- C1 counterexample: at `totalHeight=800, viewportHeight=768, overlap=100`
(a valid configuration, `0 <= 100 < 768`) the plan is `[0]` and its last
offset plus `viewportHeight` is `768 < 800`: the plan does not cover the page
down to the bottom, refuting the coverage clause of the claim. -/
theorem capturePlan_coverage_counterexample :
    (capturePlan 800 768 100).getLastD 0 + 768 < 800 := by
  rw [capturePlan_eval_800_768_100]
  decide

/-- C1 (amended): for `0 <= overlap < viewportHeight` the plan is strictly
increasing and starts at 0, and the last offset plus `viewportHeight` is
`>= totalHeight - overlap / 2` (the snap-to-bottom step may leave the bottom
`overlap / 2` pixels uncovered when the snap offset is suppressed as a
near-duplicate; stated integrally as `2 * (last + viewportHeight) >=
2 * totalHeight - overlap`). -/
theorem capturePlan_increasing_and_covers (fullHeight viewportHeight overlap : ℤ)
    (hov : 0 ≤ overlap) (hlt : overlap < viewportHeight) :
    (capturePlan fullHeight viewportHeight overlap).head? = some 0 ∧
    List.Chain' (· < ·) (capturePlan fullHeight viewportHeight overlap) ∧
    2 * ((capturePlan fullHeight viewportHeight overlap).getLastD 0 + viewportHeight) ≥
      2 * fullHeight - overlap := by
  have hstep : 0 < viewportHeight - overlap := by omega
  simp only [capturePlan]
  split
  · rename_i hsnap
    rw [snap_condition_iff] at hsnap
    have hne := positionsLoop_ne_nil fullHeight viewportHeight overlap fullHeight.toNat 0
    refine ⟨?_, ?_, ?_⟩
    · rw [List.head?_append_of_ne_nil _ hne]
      exact positionsLoop_head fullHeight viewportHeight overlap fullHeight.toNat 0
    · rw [List.chain'_append]
      refine ⟨positionsLoop_chain _ _ _ hstep _ _, List.chain'_singleton _, ?_⟩
      intro x hx y hy
      simp only [List.head?_cons, Option.mem_def, Option.some.injEq] at hy
      rw [List.getLastD_eq_getLast?] at hsnap
      rw [Option.mem_def] at hx
      rw [hx] at hsnap
      simp only [Option.getD_some] at hsnap
      omega
    · rw [List.getLastD_eq_getLast?, List.getLast?_append, List.getLast?_singleton]
      simp only [Option.or_some, Option.getD_some]
      omega
  · rename_i hsnap
    rw [snap_condition_iff] at hsnap
    refine ⟨positionsLoop_head fullHeight viewportHeight overlap fullHeight.toNat 0, ?_, ?_⟩
    · exact positionsLoop_chain _ _ _ hstep _ _
    · have hmax : fullHeight - viewportHeight ≤ max 0 (fullHeight - viewportHeight) :=
        le_max_right _ _
      omega

/-- C1 witness: the amended planner invariants instantiated at
`totalHeight=2000, viewportHeight=768, overlap=100`. -/
theorem capturePlan_increasing_and_covers_witness :
    (0 : ℤ) ≤ 100 ∧ (100 : ℤ) < 768 ∧
      ((capturePlan 2000 768 100).head? = some 0 ∧
        List.Chain' (· < ·) (capturePlan 2000 768 100) ∧
        2 * ((capturePlan 2000 768 100).getLastD 0 + 768) ≥ 2 * 2000 - 100) :=
  ⟨by norm_num, by norm_num,
    capturePlan_increasing_and_covers 2000 768 100 (by norm_num) (by norm_num)⟩

/-- C7: whenever `totalHeight <= viewportHeight` (with a valid overlap,
`0 <= overlap < viewportHeight`), the planner returns exactly `[0]`: the loop
breaks after its first push and the snap-to-bottom offset `0` is suppressed. -/
theorem capturePlan_single_when_short (fullHeight viewportHeight overlap : ℤ)
    (hov : 0 ≤ overlap) (hlt : overlap < viewportHeight)
    (hshort : fullHeight ≤ viewportHeight) :
    capturePlan fullHeight viewportHeight overlap = [0] := by
  have hloop : positionsLoop fullHeight viewportHeight overlap (fullHeight.toNat + 1) 0 = [0] := by
    unfold positionsLoop
    rw [if_pos (by omega)]
  have hmax : (0 : ℤ) ⊔ (fullHeight - viewportHeight) = 0 := by omega
  simp only [capturePlan]
  rw [hloop, hmax]
  rw [if_neg]
  simp only [show ([0] : List ℤ).getLastD 0 = 0 from rfl, gt_iff_lt, not_lt, Int.cast_zero]
  have hq : (0 : ℚ) ≤ (overlap : ℚ) := by exact_mod_cast hov
  linarith

/-- C7 witness: `totalHeight=500 <= viewportHeight=768` with `overlap=100`
yields the single-offset plan `[0]`. -/
theorem capturePlan_single_when_short_witness :
    (0 : ℤ) ≤ 100 ∧ (100 : ℤ) < 768 ∧ (500 : ℤ) ≤ 768 ∧ capturePlan 500 768 100 = [0] :=
  ⟨by norm_num, by norm_num, by norm_num,
    capturePlan_single_when_short 500 768 100 (by norm_num) (by norm_num) (by norm_num)⟩

/-- C9: for a valid configuration (`0 <= overlap < viewportHeight`) on a page
at least one viewport tall, every planned offset `o` satisfies
`o + viewportHeight <= totalHeight`: no planned tile extends below the bottom
of the measured page. -/
theorem capturePlan_offsets_within_page (fullHeight viewportHeight overlap : ℤ)
    (_hov : 0 ≤ overlap) (_hlt : overlap < viewportHeight)
    (htall : viewportHeight ≤ fullHeight) :
    ∀ o ∈ capturePlan fullHeight viewportHeight overlap,
      o + viewportHeight ≤ fullHeight := by
  intro o ho
  simp only [capturePlan] at ho
  split at ho
  · rcases List.mem_append.mp ho with h | h
    · exact positionsLoop_mem_le _ _ _ _ 0 (by omega) o h
    · simp only [List.mem_singleton] at h
      omega
  · exact positionsLoop_mem_le _ _ _ _ 0 (by omega) o ho

/-- C9 witness: at `totalHeight=2000, viewportHeight=768, overlap=100` every
planned offset keeps its tile inside the page. -/
theorem capturePlan_offsets_within_page_witness :
    (0 : ℤ) ≤ 100 ∧ (100 : ℤ) < 768 ∧ (768 : ℤ) ≤ 2000 ∧
      ∀ o ∈ capturePlan 2000 768 100, o + 768 ≤ 2000 :=
  ⟨by norm_num, by norm_num, by norm_num,
    capturePlan_offsets_within_page 2000 768 100 (by norm_num) (by norm_num) (by norm_num)⟩

/-- C2 (code bug): the source contains no validation of `overlap` anywhere —
`takeScreenshotsOfPage` enters its `while (true)` loop unconditionally.  When
`overlap >= viewportHeight` the scroll position never advances past 0, so on
any page at least one viewport tall the break condition never fires: the
fueled embedding consumes every amount of fuel without exiting, i.e. the JS
loop never terminates, and no configuration error is ever reported. -/
theorem positionsLoop_never_exits_on_bad_overlap (fullHeight viewportHeight overlap : ℤ)
    (hbad : viewportHeight ≤ overlap) (htall : viewportHeight ≤ fullHeight) :
    ∀ fuel : ℕ, (positionsLoop fullHeight viewportHeight overlap fuel 0).length = fuel := by
  have aux : ∀ (fuel : ℕ) (cur : ℤ), cur ≤ 0 →
      (positionsLoop fullHeight viewportHeight overlap fuel cur).length = fuel := by
    intro fuel
    induction fuel with
    | zero => intro cur _; rfl
    | succ n ih =>
      intro cur hcur
      unfold positionsLoop
      rw [if_neg (by omega)]
      simp [ih (cur + (viewportHeight - overlap)) (by omega)]
  exact fun fuel => aux fuel 0 le_rfl

/-- C2 witness: with `viewportHeight = overlap = 768` on a 2000px page the
loop is still running after 5 iterations (and, by the theorem, after any
number of iterations). -/
theorem positionsLoop_never_exits_on_bad_overlap_witness :
    (768 : ℤ) ≤ 768 ∧ (768 : ℤ) ≤ 2000 ∧ (positionsLoop 2000 768 768 5 0).length = 5 :=
  ⟨by norm_num, by norm_num,
    positionsLoop_never_exits_on_bad_overlap 2000 768 768 (by norm_num) (by norm_num) 5⟩

/-! ## Orchestration and retry policy

`captureFullPageScreenshot` (src/index.js lines 164-241) launches the
browser, then runs

```
try {
  await page.goto(url, ...);
  finalBuffer = await processPage();
} catch (navigationError) {
  if (useScraperApi && proxyUsername && proxyPassword) {
    await page.authenticate(...);
    await page.goto(url, ...);
    finalBuffer = await processPage();
  } else {
    throw navigationError;
  }
}
return finalBuffer;
} finally {
  if (browser) await browser.close().catch(console.error);
}
```

The embedding abstracts each browser interaction as an outcome recorded in a
`BrowserEnv` (an exception value, or a result buffer for `processPage`), and
returns both the overall result and the ordered trace of interactions
performed, so that theorems can count navigation and authentication
attempts.  Note the `catch` block wraps BOTH `page.goto` and
`processPage()`: the trace makes visible which errors reach the retry path. -/

/-- Typed failures of the pipeline (spec section 7). -/
inductive PipelineError
  | navigation
  | authentication
  | capture
  | stitch
deriving DecidableEq, Repr

/-- The truthiness of the three option fields consulted by the retry guard
`useScraperApi && proxyUsername && proxyPassword`. -/
structure ProxyConfig where
  useScraperApi : Bool
  hasProxyUsername : Bool
  hasProxyPassword : Bool
deriving DecidableEq, Repr

/-- Outcome of each browser interaction the orchestrator may perform.
`firstGoto`/`secondGoto`/`authenticate` record the exception thrown, if any;
`firstProcess`/`secondProcess` record the outcome of `processPage()`
(normalize, plan, capture, stitch), whose value stands for the stitched
buffer; `closeResult` records whether `browser.close()` rejects. -/
structure BrowserEnv where
  firstGoto : Option PipelineError
  firstProcess : Except PipelineError ℕ
  authenticate : Option PipelineError
  secondGoto : Option PipelineError
  secondProcess : Except PipelineError ℕ
  closeResult : Option PipelineError

/-- Browser interactions, in the order the orchestrator performs them. -/
inductive Event
  | goto1
  | process1
  | auth
  | goto2
  | process2
  | closeOk
  | closeSwallowedError
deriving DecidableEq, Repr

/-- The retry guard `useScraperApi && proxyUsername && proxyPassword`. -/
def proxyConfigured (c : ProxyConfig) : Bool :=
  c.useScraperApi && c.hasProxyUsername && c.hasProxyPassword

/-- The `try` body: `page.goto` then `processPage()`. -/
def firstAttempt (env : BrowserEnv) : Except PipelineError ℕ × List Event :=
  match env.firstGoto with
  | some e => (Except.error e, [Event.goto1])
  | none =>
    match env.firstProcess with
    | Except.error e => (Except.error e, [Event.goto1, Event.process1])
    | Except.ok b => (Except.ok b, [Event.goto1, Event.process1])

/-- The retry path of the `catch` block: `page.authenticate`, `page.goto`,
`processPage()`; any exception propagates (there is no further catch). -/
def retryWithProxy (env : BrowserEnv) : Except PipelineError ℕ × List Event :=
  match env.authenticate with
  | some e => (Except.error e, [Event.auth])
  | none =>
    match env.secondGoto with
    | some e => (Except.error e, [Event.auth, Event.goto2])
    | none =>
      match env.secondProcess with
      | Except.error e => (Except.error e, [Event.auth, Event.goto2, Event.process2])
      | Except.ok b => (Except.ok b, [Event.auth, Event.goto2, Event.process2])

/-- The `finally` block: `browser.close().catch(console.error)` — a close
rejection is swallowed by the `.catch` handler and cannot alter the result. -/
def closeBrowser (env : BrowserEnv) : List Event :=
  match env.closeResult with
  | some _ => [Event.closeSwallowedError]
  | none => [Event.closeOk]

/-- The try/catch/finally structure of `captureFullPageScreenshot`
(src/index.js lines 209-241): run the first attempt; on any exception, if the
proxy guard holds run the retry path, otherwise rethrow; finally close the
browser, swallowing a close failure. -/
def captureFullPageScreenshot (c : ProxyConfig) (env : BrowserEnv) :
    Except PipelineError ℕ × List Event :=
  let first := firstAttempt env
  let body :=
    match first.1 with
    | Except.ok b => (Except.ok b, first.2)
    | Except.error e =>
      if proxyConfigured c then
        let retry := retryWithProxy env
        (retry.1, first.2 ++ retry.2)
      else
        (Except.error e, first.2)
  (body.1, body.2 ++ closeBrowser env)

/-- C3 counterexample: navigation succeeds (`firstGoto = none`) but the
capture pipeline of the first attempt raises a capture error — yet with proxy
credentials configured the orchestrator authenticates, navigates again and
reruns the pipeline (`auth` and `goto2` appear in the trace), and the run
even ends in success: the capture error neither propagates immediately nor
avoids the proxy retry, because the `catch` block wraps `processPage()` as
well as `page.goto`. -/
theorem capture_error_triggers_proxy_retry :
    captureFullPageScreenshot ⟨true, true, true⟩
        ⟨none, Except.error PipelineError.capture, none, none, Except.ok 7, none⟩ =
      (Except.ok 7,
        [Event.goto1, Event.process1, Event.auth, Event.goto2, Event.process2,
          Event.closeOk]) := by
  rfl

/-- C3 (amended): any error raised during the first attempt — a navigation
failure, or a capture/stitch error arising after navigation succeeded — is
caught by the same `catch` block.  When proxy credentials are configured it
triggers the single proxy retry (exactly one `authenticate`, at most one
further `goto`), and the overall result is the outcome of the retry path,
whose own errors propagate to the caller with no further retry; when proxy
credentials are not configured, the first-attempt error propagates
immediately to the caller, with zero authentications and zero retry
navigations. -/
theorem first_attempt_error_retried_once (c : ProxyConfig) (env : BrowserEnv)
    (e : PipelineError)
    (hfail : env.firstGoto = some e ∨
      (env.firstGoto = none ∧ env.firstProcess = Except.error e)) :
    (proxyConfigured c = true →
      (captureFullPageScreenshot c env).1 = (retryWithProxy env).1 ∧
      (captureFullPageScreenshot c env).2.count Event.auth = 1 ∧
      (captureFullPageScreenshot c env).2.count Event.goto2 ≤ 1) ∧
    (proxyConfigured c = false →
      (captureFullPageScreenshot c env).1 = Except.error e ∧
      (captureFullPageScreenshot c env).2.count Event.auth = 0 ∧
      (captureFullPageScreenshot c env).2.count Event.goto2 = 0) := by
  constructor
  · intro hc
    unfold captureFullPageScreenshot firstAttempt retryWithProxy closeBrowser
    rcases hfail with hnav | ⟨hnav, hproc⟩
    · rw [hnav, hc]
      rcases env.authenticate with _ | a <;>
        rcases env.secondGoto with _ | g <;>
        rcases env.secondProcess with p | p <;>
        rcases env.closeResult with _ | r <;>
        simp [List.count_cons, List.count_append]
    · rw [hnav, hproc, hc]
      rcases env.authenticate with _ | a <;>
        rcases env.secondGoto with _ | g <;>
        rcases env.secondProcess with p | p <;>
        rcases env.closeResult with _ | r <;>
        simp [List.count_cons, List.count_append]
  · intro hc
    unfold captureFullPageScreenshot firstAttempt closeBrowser
    rcases hfail with hnav | ⟨hnav, hproc⟩
    · rw [hnav, hc]
      rcases env.closeResult with _ | r <;>
        simp [List.count_cons, List.count_append]
    · rw [hnav, hproc, hc]
      rcases env.closeResult with _ | r <;>
        simp [List.count_cons, List.count_append]

/-- C3 witness: a concrete run in which navigation succeeds, the pipeline of
the first attempt fails with a stitch error, and with proxy credentials
configured the retry runs (one authentication, at most one retry navigation)
and its navigation failure is what surfaces. -/
theorem first_attempt_error_retried_once_witness :
    ((⟨none, Except.error PipelineError.stitch, none, some PipelineError.navigation,
        Except.ok 3, none⟩ : BrowserEnv).firstGoto = some PipelineError.stitch ∨
      ((⟨none, Except.error PipelineError.stitch, none, some PipelineError.navigation,
          Except.ok 3, none⟩ : BrowserEnv).firstGoto = none ∧
        (⟨none, Except.error PipelineError.stitch, none, some PipelineError.navigation,
          Except.ok 3, none⟩ : BrowserEnv).firstProcess =
          Except.error PipelineError.stitch)) ∧
    ((proxyConfigured ⟨true, true, true⟩ = true →
      (captureFullPageScreenshot ⟨true, true, true⟩
          ⟨none, Except.error PipelineError.stitch, none,
            some PipelineError.navigation, Except.ok 3, none⟩).1 =
        (retryWithProxy
          ⟨none, Except.error PipelineError.stitch, none,
            some PipelineError.navigation, Except.ok 3, none⟩).1 ∧
      (captureFullPageScreenshot ⟨true, true, true⟩
          ⟨none, Except.error PipelineError.stitch, none,
            some PipelineError.navigation, Except.ok 3, none⟩).2.count Event.auth = 1 ∧
      (captureFullPageScreenshot ⟨true, true, true⟩
          ⟨none, Except.error PipelineError.stitch, none,
            some PipelineError.navigation, Except.ok 3, none⟩).2.count Event.goto2 ≤ 1) ∧
    (proxyConfigured ⟨true, true, true⟩ = false →
      (captureFullPageScreenshot ⟨true, true, true⟩
          ⟨none, Except.error PipelineError.stitch, none,
            some PipelineError.navigation, Except.ok 3, none⟩).1 =
        Except.error PipelineError.stitch ∧
      (captureFullPageScreenshot ⟨true, true, true⟩
          ⟨none, Except.error PipelineError.stitch, none,
            some PipelineError.navigation, Except.ok 3, none⟩).2.count Event.auth = 0 ∧
      (captureFullPageScreenshot ⟨true, true, true⟩
          ⟨none, Except.error PipelineError.stitch, none,
            some PipelineError.navigation, Except.ok 3, none⟩).2.count Event.goto2 = 0)) :=
  ⟨Or.inr ⟨rfl, rfl⟩,
    first_attempt_error_retried_once ⟨true, true, true⟩
      ⟨none, Except.error PipelineError.stitch, none,
        some PipelineError.navigation, Except.ok 3, none⟩
      PipelineError.stitch (Or.inr ⟨rfl, rfl⟩)⟩

/-- C6: when the initial navigation fails, (a) with the proxy guard true the
orchestrator authenticates exactly once and — when authentication succeeds —
navigates again exactly once; if that second navigation also fails its error
surfaces to the caller and the pipeline is never rerun (no `process2`); (b)
with the proxy guard false the original navigation error surfaces immediately
with zero authentications and zero retry navigations. -/
theorem navigation_failure_retry_policy (c : ProxyConfig) (env : BrowserEnv)
    (e : PipelineError) (hnav : env.firstGoto = some e) :
    (proxyConfigured c = true →
      (captureFullPageScreenshot c env).2.count Event.auth = 1 ∧
      (env.authenticate = none →
        (captureFullPageScreenshot c env).2.count Event.goto2 = 1 ∧
        ∀ e2, env.secondGoto = some e2 →
          (captureFullPageScreenshot c env).1 = Except.error e2 ∧
          (captureFullPageScreenshot c env).2.count Event.process2 = 0)) ∧
    (proxyConfigured c = false →
      (captureFullPageScreenshot c env).1 = Except.error e ∧
      (captureFullPageScreenshot c env).2.count Event.auth = 0 ∧
      (captureFullPageScreenshot c env).2.count Event.goto2 = 0) := by
  unfold captureFullPageScreenshot firstAttempt
  rw [hnav]
  unfold retryWithProxy closeBrowser
  constructor
  · intro hc
    rw [hc]
    constructor
    · rcases env.authenticate with _ | a <;>
        rcases env.secondGoto with _ | g <;>
        rcases env.secondProcess with p | p <;>
        rcases env.closeResult with _ | r <;>
        simp [List.count_cons, List.count_append]
    · intro hauth
      rw [hauth]
      constructor
      · rcases env.secondGoto with _ | g <;>
          rcases env.secondProcess with p | p <;>
          rcases env.closeResult with _ | r <;>
          simp [List.count_cons, List.count_append]
      · intro e2 hg2
        rw [hg2]
        rcases env.closeResult with _ | r <;>
          simp [List.count_cons, List.count_append]
  · intro hc
    rw [hc]
    rcases env.closeResult with _ | r <;>
      simp [List.count_cons, List.count_append]

/-- C6 witness: the retry policy instantiated at a run whose two navigations
both fail with proxy configured - the second error surfaces after exactly one
authentication and one retry navigation. -/
theorem navigation_failure_retry_policy_witness :
    (⟨some PipelineError.navigation, Except.ok 0, none, some PipelineError.navigation,
        Except.ok 0, none⟩ : BrowserEnv).firstGoto = some PipelineError.navigation ∧
      ((proxyConfigured ⟨true, true, true⟩ = true →
        (captureFullPageScreenshot ⟨true, true, true⟩
            ⟨some PipelineError.navigation, Except.ok 0, none,
              some PipelineError.navigation, Except.ok 0, none⟩).2.count Event.auth = 1 ∧
        ((⟨some PipelineError.navigation, Except.ok 0, none, some PipelineError.navigation,
            Except.ok 0, none⟩ : BrowserEnv).authenticate = none →
          (captureFullPageScreenshot ⟨true, true, true⟩
              ⟨some PipelineError.navigation, Except.ok 0, none,
                some PipelineError.navigation, Except.ok 0, none⟩).2.count Event.goto2 = 1 ∧
          ∀ e2, (⟨some PipelineError.navigation, Except.ok 0, none,
              some PipelineError.navigation, Except.ok 0, none⟩ : BrowserEnv).secondGoto =
                some e2 →
            (captureFullPageScreenshot ⟨true, true, true⟩
                ⟨some PipelineError.navigation, Except.ok 0, none,
                  some PipelineError.navigation, Except.ok 0, none⟩).1 = Except.error e2 ∧
            (captureFullPageScreenshot ⟨true, true, true⟩
                ⟨some PipelineError.navigation, Except.ok 0, none,
                  some PipelineError.navigation, Except.ok 0, none⟩).2.count
                Event.process2 = 0)) ∧
      (proxyConfigured ⟨true, true, true⟩ = false →
        (captureFullPageScreenshot ⟨true, true, true⟩
            ⟨some PipelineError.navigation, Except.ok 0, none,
              some PipelineError.navigation, Except.ok 0, none⟩).1 =
          Except.error PipelineError.navigation ∧
        (captureFullPageScreenshot ⟨true, true, true⟩
            ⟨some PipelineError.navigation, Except.ok 0, none,
              some PipelineError.navigation, Except.ok 0, none⟩).2.count Event.auth = 0 ∧
        (captureFullPageScreenshot ⟨true, true, true⟩
            ⟨some PipelineError.navigation, Except.ok 0, none,
              some PipelineError.navigation, Except.ok 0, none⟩).2.count Event.goto2 = 0)) :=
  ⟨rfl,
    navigation_failure_retry_policy ⟨true, true, true⟩
      ⟨some PipelineError.navigation, Except.ok 0, none, some PipelineError.navigation,
        Except.ok 0, none⟩
      PipelineError.navigation rfl⟩

/-- C10: the outcome of `captureFullPageScreenshot` — stitched buffer or
propagated error — is identical whatever `browser.close()` does in the
`finally` block, because its rejection is consumed by `.catch(console.error)`:
a close failure never changes the returned buffer nor the surfaced error. -/
theorem close_failure_preserves_outcome (c : ProxyConfig) (env : BrowserEnv)
    (r r' : Option PipelineError) :
    (captureFullPageScreenshot c { env with closeResult := r }).1 =
      (captureFullPageScreenshot c { env with closeResult := r' }).1 := by
  unfold captureFullPageScreenshot firstAttempt retryWithProxy
  rcases env.firstGoto with _ | e <;>
    rcases env.firstProcess with p | p <;>
    simp

/-! ## Stitching

`stitchScreenshots` (src/index.js lines 115-135) creates a sharp canvas of
width `viewportWidth`, height `fullHeight`, 4 channels, background
`{r:255, g:255, b:255, alpha:1}`, and composites the screenshots in list
order, each at `(left = 0, top = shot.position)`.  Screenshots are opaque
viewport captures, so compositing one onto the canvas replaces every covered
pixel.  The embedding represents a raster as a pixel function together with
its dimensions, and the composite chain as a left fold in plan order. -/

/-- One RGBA pixel of a raster image. -/
structure Pixel where
  r : ℕ
  g : ℕ
  b : ℕ
  alpha : ℕ
deriving DecidableEq, Repr

/-- The canvas background `{ r: 255, g: 255, b: 255, alpha: 1 }` of the
`sharp({ create: ... })` call: opaque white. -/
def background : Pixel := ⟨255, 255, 255, 1⟩

/-- One captured tile: an image of the viewport (`width × height` pixel
function in tile-local coordinates) together with the scroll position at
which it was captured — the `{ image, position }` records built by
`takeScreenshotsOfPage`. -/
structure Screenshot where
  width : ℕ
  height : ℕ
  image : ℕ → ℕ → Pixel
  position : ℕ

instance : Inhabited Screenshot := ⟨⟨0, 0, fun _ _ => background, 0⟩⟩

/-- A canvas: dimensions plus a pixel function. -/
structure Canvas where
  width : ℕ
  height : ℕ
  pixel : ℕ → ℕ → Pixel

/-- The canvas point `(x, y)` lies under tile `s` composited at
`(left = 0, top = s.position)`. -/
def coversPoint (s : Screenshot) (x y : ℕ) : Prop :=
  x < s.width ∧ s.position ≤ y ∧ y < s.position + s.height

instance (s : Screenshot) (x y : ℕ) : Decidable (coversPoint s x y) := by
  unfold coversPoint
  exact inferInstance

/-- Composite one opaque screenshot onto the canvas at
`(left = 0, top = shot.position)`: covered pixels are replaced by the tile's
pixels, everything else is untouched. -/
def compositeOne (canvas : Canvas) (shot : Screenshot) : Canvas :=
  { canvas with
    pixel := fun x y =>
      if coversPoint shot x y then shot.image x (y - shot.position)
      else canvas.pixel x y }

/-- The `sharp({ create: ... })` canvas: `viewportWidth × fullHeight`, opaque
white background. -/
def createCanvas (width height : ℕ) : Canvas :=
  ⟨width, height, fun _ _ => background⟩

/-- `stitchScreenshots(screenshots, fullHeight, viewportWidth,
viewportHeight)`: allocate the white canvas and composite the screenshots in
list (plan) order.  As in the source, `viewportHeight` is accepted but not
used by the stitching itself (each tile carries its own dimensions). -/
def stitchScreenshots (screenshots : List Screenshot)
    (fullHeight viewportWidth viewportHeight : ℕ) : Canvas :=
  let _ := viewportHeight
  screenshots.foldl compositeOne (createCanvas viewportWidth fullHeight)

theorem foldl_compositeOne_width (screenshots : List Screenshot) :
    ∀ canvas : Canvas, (screenshots.foldl compositeOne canvas).width = canvas.width := by
  induction screenshots with
  | nil => intro canvas; rfl
  | cons s rest ih => intro canvas; exact ih (compositeOne canvas s)

theorem foldl_compositeOne_height (screenshots : List Screenshot) :
    ∀ canvas : Canvas, (screenshots.foldl compositeOne canvas).height = canvas.height := by
  induction screenshots with
  | nil => intro canvas; rfl
  | cons s rest ih => intro canvas; exact ih (compositeOne canvas s)

/-- If no tile of the list covers `(x, y)`, folding the composites leaves the
canvas pixel at `(x, y)` unchanged. -/
theorem foldl_compositeOne_not_covered (x y : ℕ) :
    ∀ (screenshots : List Screenshot) (canvas : Canvas),
      (∀ k, k < screenshots.length → ¬ coversPoint (screenshots.getD k default) x y) →
      (screenshots.foldl compositeOne canvas).pixel x y = canvas.pixel x y := by
  intro screenshots
  induction screenshots with
  | nil => intro canvas _; rfl
  | cons s rest ih =>
    intro canvas h
    have hs : ¬ coversPoint s x y := h 0 (by simp)
    have hrest : ∀ k, k < rest.length → ¬ coversPoint (rest.getD k default) x y := by
      intro k hk
      exact h (k + 1) (by simpa using Nat.succ_lt_succ hk)
    rw [List.foldl_cons, ih (compositeOne canvas s) hrest]
    simp [compositeOne, hs]

/-- If the tile at index `j` covers `(x, y)` and no later tile does, the
folded pixel at `(x, y)` is tile `j`'s pixel. -/
theorem foldl_compositeOne_last_covering (x y : ℕ) :
    ∀ (screenshots : List Screenshot) (canvas : Canvas) (j : ℕ),
      j < screenshots.length →
      coversPoint (screenshots.getD j default) x y →
      (∀ k, k < screenshots.length → j < k →
        ¬ coversPoint (screenshots.getD k default) x y) →
      (screenshots.foldl compositeOne canvas).pixel x y =
        (screenshots.getD j default).image x (y - (screenshots.getD j default).position) := by
  intro screenshots
  induction screenshots with
  | nil => intro canvas j hj; simp at hj
  | cons s rest ih =>
    intro canvas j hj hcov hlater
    rcases j with _ | j'
    · have hrest : ∀ k, k < rest.length → ¬ coversPoint (rest.getD k default) x y := by
        intro k hk
        exact hlater (k + 1) (by simpa using Nat.succ_lt_succ hk) (Nat.succ_pos k)
      rw [List.foldl_cons, foldl_compositeOne_not_covered x y rest (compositeOne canvas s) hrest]
      simp only [List.getD_cons_zero] at hcov ⊢
      simp [compositeOne, hcov]
    · have hj' : j' < rest.length := by simpa using Nat.lt_of_succ_lt_succ hj
      have hcov' : coversPoint (rest.getD j' default) x y := by
        simpa using hcov
      have hlater' : ∀ k, k < rest.length → j' < k →
          ¬ coversPoint (rest.getD k default) x y := by
        intro k hk hjk
        have := hlater (k + 1) (by simpa using Nat.succ_lt_succ hk) (Nat.succ_lt_succ hjk)
        simpa using this
      rw [List.foldl_cons]
      simpa using ih (compositeOne canvas s) j' hj' hcov' hlater'

/-- C5: stitching allocates a canvas of exactly `viewportWidth × fullHeight`
over an opaque white background and composites each tile at
`(x = 0, y = tile.position)` in plan order; at any point covered by the tile
at index `j` and by no later tile (in particular, in a band covered by two
overlapping tiles, taking `j` the later of the two), the stitched pixel is
tile `j`'s pixel, not any earlier tile's. -/
theorem stitch_later_tile_wins (screenshots : List Screenshot)
    (fullHeight viewportWidth viewportHeight x y j : ℕ)
    (hj : j < screenshots.length)
    (hcov : coversPoint (screenshots.getD j default) x y)
    (hlater : ∀ k, k < screenshots.length → j < k →
      ¬ coversPoint (screenshots.getD k default) x y) :
    (stitchScreenshots screenshots fullHeight viewportWidth viewportHeight).width =
        viewportWidth ∧
    (stitchScreenshots screenshots fullHeight viewportWidth viewportHeight).height =
        fullHeight ∧
    (stitchScreenshots screenshots fullHeight viewportWidth viewportHeight).pixel x y =
      (screenshots.getD j default).image x (y - (screenshots.getD j default).position) := by
  refine ⟨?_, ?_, ?_⟩
  · exact foldl_compositeOne_width screenshots (createCanvas viewportWidth fullHeight)
  · exact foldl_compositeOne_height screenshots (createCanvas viewportWidth fullHeight)
  · exact foldl_compositeOne_last_covering x y screenshots
      (createCanvas viewportWidth fullHeight) j hj hcov hlater

/-- C5 witness: two overlapping constant-colour tiles at offsets 0 and 400
(viewport 1366x768, page height 1000); at `(5, 450)` — inside the overlap
band `[400, 768)` — the stitched pixel is the later (second) tile's colour. -/
theorem stitch_later_tile_wins_witness :
    (1 < ([⟨1366, 768, fun _ _ => ⟨10, 10, 10, 255⟩, 0⟩,
            ⟨1366, 768, fun _ _ => ⟨20, 20, 20, 255⟩, 400⟩] : List Screenshot).length) ∧
    coversPoint (([⟨1366, 768, fun _ _ => ⟨10, 10, 10, 255⟩, 0⟩,
            ⟨1366, 768, fun _ _ => ⟨20, 20, 20, 255⟩, 400⟩] : List Screenshot).getD 1 default)
        5 450 ∧
    (∀ k, k < ([⟨1366, 768, fun _ _ => ⟨10, 10, 10, 255⟩, 0⟩,
            ⟨1366, 768, fun _ _ => ⟨20, 20, 20, 255⟩, 400⟩] : List Screenshot).length →
        1 < k →
        ¬ coversPoint (([⟨1366, 768, fun _ _ => ⟨10, 10, 10, 255⟩, 0⟩,
            ⟨1366, 768, fun _ _ => ⟨20, 20, 20, 255⟩, 400⟩] : List Screenshot).getD k default)
          5 450) ∧
    ((stitchScreenshots [⟨1366, 768, fun _ _ => ⟨10, 10, 10, 255⟩, 0⟩,
            ⟨1366, 768, fun _ _ => ⟨20, 20, 20, 255⟩, 400⟩] 1000 1366 768).width = 1366 ∧
      (stitchScreenshots [⟨1366, 768, fun _ _ => ⟨10, 10, 10, 255⟩, 0⟩,
            ⟨1366, 768, fun _ _ => ⟨20, 20, 20, 255⟩, 400⟩] 1000 1366 768).height = 1000 ∧
      (stitchScreenshots [⟨1366, 768, fun _ _ => ⟨10, 10, 10, 255⟩, 0⟩,
            ⟨1366, 768, fun _ _ => ⟨20, 20, 20, 255⟩, 400⟩] 1000 1366 768).pixel 5 450 =
        (([⟨1366, 768, fun _ _ => ⟨10, 10, 10, 255⟩, 0⟩,
            ⟨1366, 768, fun _ _ => ⟨20, 20, 20, 255⟩, 400⟩] : List Screenshot).getD 1
            default).image 5
          (450 - (([⟨1366, 768, fun _ _ => ⟨10, 10, 10, 255⟩, 0⟩,
            ⟨1366, 768, fun _ _ => ⟨20, 20, 20, 255⟩, 400⟩] : List Screenshot).getD 1
            default).position)) :=
  ⟨by decide, by decide, by decide,
    stitch_later_tile_wins
      [⟨1366, 768, fun _ _ => ⟨10, 10, 10, 255⟩, 0⟩,
        ⟨1366, 768, fun _ _ => ⟨20, 20, 20, 255⟩, 400⟩]
      1000 1366 768 5 450 1 (by decide) (by decide) (by decide)⟩

/-! ## Fixed-to-absolute DOM normalization

`convertFixedElementsToAbsolute` (src/index.js lines 12-32) injects a
recursive `convertToAbsolute` into the page: for an element whose computed
position is `fixed` it sets `position = absolute`,
`top = rect.top + scrollTop`, `left = rect.left`, `bottom = right = auto`,
and in every case recurses into the element's children.  The embedding models
an element as its computed position, its four inset styles, its bounding
rectangle as read at conversion time, and its children. -/

/-- Computed value of the CSS `position` property. -/
inductive CssPosition
  | fixed
  | absolute
  | relative
  | sticky
  | staticPos
deriving DecidableEq, Repr

/-- An inset style value: `auto` or a pixel length. -/
inductive CssLength
  | auto
  | px (value : ℤ)
deriving DecidableEq, Repr

/-- A rendered DOM element: computed position, inset styles, the bounding
rectangle `getBoundingClientRect()` reports for it, and its child elements. -/
inductive DomElement where
  | mk (position : CssPosition) (top left bottom right : CssLength)
      (rectTop rectLeft : ℤ) (children : List DomElement)

/-- The inner `convertToAbsolute` of src/index.js lines 14-28: rewrite a
`fixed` element to `absolute` with `top = rect.top + scrollTop`,
`left = rect.left`, `bottom = right = auto`, and recurse into the children
whether or not the element itself was converted.  (`attach` only carries the
membership proof used for termination.) -/
def convertToAbsolute (scrollTop : ℤ) : DomElement → DomElement
  | .mk pos top left bottom right rectTop rectLeft children =>
    if pos = CssPosition.fixed then
      .mk CssPosition.absolute (.px (rectTop + scrollTop)) (.px rectLeft) .auto .auto
        rectTop rectLeft (children.attach.map (fun c => convertToAbsolute scrollTop c.1))
    else
      .mk pos top left bottom right rectTop rectLeft
        (children.attach.map (fun c => convertToAbsolute scrollTop c.1))
decreasing_by
  all_goals
    have h := List.sizeOf_lt_of_mem c.2
    simp only [DomElement.mk.sizeOf_spec]
    omega

/-- `convertFixedElementsToAbsolute` runs `convertToAbsolute` on the document
body at the document's current vertical scroll offset. -/
def convertFixedElementsToAbsolute (scrollTop : ℤ) (body : DomElement) : DomElement :=
  convertToAbsolute scrollTop body

theorem convertToAbsolute_attach_map (scrollTop : ℤ) (children : List DomElement) :
    children.attach.map (fun c => convertToAbsolute scrollTop c.1) =
      children.map (fun c => convertToAbsolute scrollTop c) :=
  List.attach_map_coe _ _

/-- A converted element's computed position is never `fixed`: a `fixed`
element becomes `absolute` and every other position is left unchanged. -/
theorem convertToAbsolute_position_ne_fixed (scrollTop : ℤ) (e : DomElement) :
    ∀ pos top left bottom right rectTop rectLeft children,
      convertToAbsolute scrollTop e =
        DomElement.mk pos top left bottom right rectTop rectLeft children →
      pos ≠ CssPosition.fixed := by
  obtain ⟨p, t, l, b, r, rt, rl, cs⟩ := e
  intro pos top left bottom right rectTop rectLeft children h
  unfold convertToAbsolute at h
  split at h <;> (injection h with h1; subst h1) <;> simp_all

theorem convertToAbsolute_idem_aux :
    ∀ (n : ℕ) (e : DomElement), sizeOf e ≤ n → ∀ s s' : ℤ,
      convertToAbsolute s' (convertToAbsolute s e) = convertToAbsolute s e := by
  intro n
  induction n with
  | zero =>
    intro e h
    obtain ⟨p, t, l, b, r, rt, rl, cs⟩ := e
    simp only [DomElement.mk.sizeOf_spec] at h
    omega
  | succ n ih =>
    intro e h s s'
    obtain ⟨p, t, l, b, r, rt, rl, cs⟩ := e
    have hch : ∀ c ∈ cs, sizeOf c ≤ n := by
      intro c hc
      have hlt := List.sizeOf_lt_of_mem hc
      simp only [DomElement.mk.sizeOf_spec] at h
      omega
    by_cases hp : p = CssPosition.fixed
    · rw [convertToAbsolute, if_pos hp, convertToAbsolute, if_neg (by simp)]
      congr 1
      rw [convertToAbsolute_attach_map, convertToAbsolute_attach_map, List.map_map]
      refine List.map_congr_left ?_
      intro c hc
      exact ih c (hch c hc) s s'
    · rw [convertToAbsolute, if_neg hp, convertToAbsolute, if_neg hp]
      congr 1
      rw [convertToAbsolute_attach_map, convertToAbsolute_attach_map, List.map_map]
      refine List.map_congr_left ?_
      intro c hc
      exact ih c (hch c hc) s s'

/-- C8: the fixed-to-absolute normalization is idempotent.  Rerunning
`convertFixedElementsToAbsolute` on an already-converted element tree — even
at a different scroll offset `s'`, as after scrolling — returns the tree
unchanged (in particular no element's position, top or left changes), because
a converted element's computed position is `absolute` or another non-`fixed`
value, so the `fixed` branch is never taken again. -/
theorem convertFixedElementsToAbsolute_idempotent (s s' : ℤ) (body : DomElement) :
    convertFixedElementsToAbsolute s' (convertFixedElementsToAbsolute s body) =
      convertFixedElementsToAbsolute s body :=
  convertToAbsolute_idem_aux (sizeOf body) body le_rfl s s'

end FullPageScreenshots
